import Mathlib

/-
Shallow embedding of the MCP server lifecycle manager of the any-agent
repository (src/any_agent/tools/mcp.py) and of the user-interaction tool
wrappers (src/any_agent/tools/user_interaction.py), with theorems settling
the frozen claims about them.

Modelling conventions:
  * Python strings are Lean `String`, Python lists are Lean `List`.
  * The host process environment (`os.environ`) is passed explicitly as a
    value of type `Env`; the Python expression `{**os.environ}` (a copy of
    the host environment) is modelled as passing that value.
  * The remote MCP server's advertised tool list (what
    `tool_collection.tools`, `server.list_tools()`, etc. return) is an
    explicit input `advertised : List ToolDesc` of each setup function.
  * `logger.info(...)` / `logger.warning(...)` calls are modelled as
    `LogEvent` values collected in the result; a value interpolated into an
    f-string message is recorded in the event's `data` field.
  * Raising an exception is modelled by an `error` field in the result;
    mutations of `self` performed before the raise persist in the returned
    state, exactly as they do on the Python object.
  * The config object `MCPTool` (fields `command`, `args`, `tools`) is
    `MCPToolCfg`; its `tools` field is the optional allow-list.  Python
    truthiness of `self.mcp_tool.tools` is modelled by emptiness of the
    list (`None` and `[]` are both falsy and indistinguishable to this
    code, so both are the empty list here).
-/

/-- The host process environment: an association list of variable names to
values, modelling `os.environ`. -/
abbrev Env := List (String × String)

/-- The `MCPTool` configuration object consumed by every adapter:
`command`, `args`, and the optional tool allow-list `tools`. -/
structure MCPToolCfg where
  command : String
  args : List String
  tools : List String
deriving Repr, DecidableEq

/-- A tool descriptor as advertised by the MCP server; the adapters only
ever inspect its `name` attribute. -/
structure ToolDesc where
  name : String
deriving Repr, DecidableEq

/-- Severity of a diagnostic event emitted through `logger`. -/
inductive LogLevel where
  | info
  | warning
deriving Repr, DecidableEq

/-- One `logger.info`/`logger.warning` call: its level, the fixed text of
the message, and the tool values interpolated into the f-string (if any). -/
structure LogEvent where
  level : LogLevel
  msg : String
  data : List ToolDesc
deriving Repr, DecidableEq

/-- Parameters handed to a framework's stdio server/client constructor
(`StdioServerParameters`, `BasicMCPClient`, or the OpenAI params dict):
command, argument list, and the `env` entry if one was passed
(`none` when the constructor received no environment). -/
structure SpawnParams where
  command : String
  args : List String
  env : Option Env
deriving Repr, DecidableEq

/-- The `ValueError` raised by `SmolagentsMCPServerStdio.setup_tools` when
the allow-list is not fully present: its message interpolates the requested
names (`Requested: {requested_tools}`) and the names actually found
(`Set: {tool_names}`); the two interpolated values are recorded here. -/
structure ToolResolutionError where
  requested : List String
  found : List String
deriving Repr, DecidableEq

/-- The mutable attributes of a `SmolagentsMCPServerStdio` handle.
`contextOpen` records whether `self.context.__enter__()` has been executed
and not exited (the transport is open); `trustRemoteCode` records the
`trust_remote_code` argument passed to `ToolCollection.from_mcp` (`none`
before any setup); `spawnCount` counts how many times
`ToolCollection.from_mcp(...)` + `__enter__` have run on this handle, i.e.
how many server processes this handle has spawned. -/
structure SmolagentsState where
  mcpTool : MCPToolCfg
  tools : List ToolDesc
  serverParameters : Option SpawnParams
  contextOpen : Bool
  trustRemoteCode : Option Bool
  spawnCount : Nat
deriving Repr, DecidableEq

/-- `MCPServerBase.__init__` followed by `SmolagentsMCPServerStdio.__init__`:
`self.tools = []`, `self.context = None`, `self.tool_collection = None`. -/
def initSmol (cfg : MCPToolCfg) : SmolagentsState :=
  { mcpTool := cfg
    tools := []
    serverParameters := none
    contextOpen := false
    trustRemoteCode := none
    spawnCount := 0 }

/-- Result of one `setup_tools` call on a smolagents handle: the handle's
state after the call (also when the call raised), the log events emitted
during the call, and the raised `ValueError` if any. -/
structure SmolResult where
  state : SmolagentsState
  logs : List LogEvent
  error : Option ToolResolutionError
deriving Repr, DecidableEq

/-- Embedding of `SmolagentsMCPServerStdio.setup_tools` (mcp.py lines
54-89).  It builds `StdioServerParameters(command, args, env={**os.environ})`,
creates the tool collection with `trust_remote_code=True`, enters the
context (opening the transport and spawning the server), reads the
advertised tools, and then: if `self.mcp_tool.tools` is truthy (non-empty),
filters the advertised tools by name and raises a `ValueError` naming the
requested and found names when the filtered count differs from the
requested count, otherwise stores the filtered list; if falsy, logs the
full list at info level and stores it. -/
def smolagentsSetupTools (hostEnv : Env) (advertised : List ToolDesc)
    (s : SmolagentsState) : SmolResult :=
  let sp : SpawnParams :=
    { command := s.mcpTool.command, args := s.mcpTool.args, env := some hostEnv }
  let s1 : SmolagentsState :=
    { s with serverParameters := some sp
             trustRemoteCode := some true
             contextOpen := true
             spawnCount := s.spawnCount + 1 }
  let tools := advertised
  let requested := s.mcpTool.tools
  if requested.isEmpty then
    { state := { s1 with tools := tools }
      logs :=
        [ { level := .info
            msg := "No specific tools requested for MCP server, using all available tools:"
            data := [] }
        , { level := .info, msg := "Tools available:", data := tools } ]
      error := none }
  else
    let filtered := tools.filter (fun t => decide (t.name ∈ requested))
    if filtered.length ≠ requested.length then
      let toolNames := filtered.map (fun t => t.name)
      { state := s1
        logs := []
        error := some { requested := requested, found := toolNames } }
    else
      { state := { s1 with tools := filtered }, logs := [], error := none }

/-- The methods defined by `class MCPServerBase` in mcp.py (lines 27-43):
a constructor and the abstract `setup_tools`.  No teardown, close, or
cleanup method is defined. -/
def MCPServerBase.methods : List String :=
  ["__init__", "setup_tools"]

/-- The methods defined by `class SmolagentsMCPServerStdio` in mcp.py
(lines 46-89): a constructor and `setup_tools`.  No teardown, close, or
cleanup method is defined (the stored `self.context` is never exited by any
method of the class). -/
def SmolagentsMCPServerStdio.methods : List String :=
  ["__init__", "setup_tools"]

/-- Result of `OpenAIMCPServerStdio.setup_tools` (mcp.py lines 100-117):
the server is constructed with `name="OpenAI MCP Server"` and
`params={"command": ..., "args": ...}` — the params dict contains no `env`
entry — then entered, `list_tools()` is stored, and a warning is logged. -/
structure OpenAIResult where
  spawn : SpawnParams
  serverName : String
  tools : List ToolDesc
  logs : List LogEvent
deriving Repr, DecidableEq

/-- Embedding of `OpenAIMCPServerStdio.setup_tools`.  `hostEnv` is the host
process environment; the function never places it in the spawn parameters
because the source passes no `env` key. -/
def openaiSetupTools (hostEnv : Env) (advertised : List ToolDesc)
    (cfg : MCPToolCfg) : OpenAIResult :=
  { spawn := { command := cfg.command, args := cfg.args, env := none }
    serverName := "OpenAI MCP Server"
    tools := advertised
    logs :=
      [ { level := .warning
          msg := "OpenAI MCP currently does not support filtering MCP available tools"
          data := [] } ] }

/-- Result of `LangchainMCPServerStdio.setup_tools` (mcp.py lines 129-143):
`StdioServerParameters(command, args, env={**os.environ})`, a stdio client
and session are opened and initialized, and `load_mcp_tools(session)`
returns every tool the server advertises.  `allowToClient` records the
allow-list handed to the native client: the source passes none (neither
`StdioServerParameters` nor `load_mcp_tools` receives `mcp_tool.tools`). -/
structure LangchainResult where
  spawn : SpawnParams
  sessionInitialized : Bool
  tools : List ToolDesc
  logs : List LogEvent
  allowToClient : Option (List String)
deriving Repr, DecidableEq

/-- Embedding of `LangchainMCPServerStdio.setup_tools`. -/
def langchainSetupTools (hostEnv : Env) (advertised : List ToolDesc)
    (cfg : MCPToolCfg) : LangchainResult :=
  { spawn := { command := cfg.command, args := cfg.args, env := some hostEnv }
    sessionInitialized := true
    tools := advertised
    logs := []
    allowToClient := none }

/-- Result of `GoogleMCPServerStdio.setup_tools` (mcp.py lines 153-170):
`StdioServerParameters(command, args, env={**os.environ})` feeds a
`MCPToolset`, which is entered and whose `load_tools()` (the full
advertised list) is stored.  No allow-list is passed to the toolset and no
diagnostic is logged. -/
structure GoogleResult where
  spawn : SpawnParams
  tools : List ToolDesc
  logs : List LogEvent
  allowToClient : Option (List String)
deriving Repr, DecidableEq

/-- Embedding of `GoogleMCPServerStdio.setup_tools`. -/
def googleSetupTools (hostEnv : Env) (advertised : List ToolDesc)
    (cfg : MCPToolCfg) : GoogleResult :=
  { spawn := { command := cfg.command, args := cfg.args, env := some hostEnv }
    tools := advertised
    logs := []
    allowToClient := none }

/-- Result of `LlamaIndexMCPServerStdio.setup_tools` (mcp.py lines
179-194): `BasicMCPClient(command_or_url, args, env={**os.environ})` and
`McpToolSpec(client, allowed_tools=self.mcp_tool.tools)`; the allow-list is
passed straight through to the native client constructor. -/
structure LlamaIndexResult where
  spawn : SpawnParams
  allowedTools : List String
deriving Repr, DecidableEq

/-- Embedding of `LlamaIndexMCPServerStdio.setup_tools`. -/
def llamaIndexSetupTools (hostEnv : Env) (cfg : MCPToolCfg) : LlamaIndexResult :=
  { spawn := { command := cfg.command, args := cfg.args, env := some hostEnv }
    allowedTools := cfg.tools }

/-- Result of `AgnoMCPServerStdio.setup_tools` (mcp.py lines 204-214):
`MCPTools(command=f"{command} {' '.join(args)}",
include_tools=self.mcp_tool.tools, env={**os.environ})`; the allow-list is
passed straight through as `include_tools`. -/
structure AgnoResult where
  commandLine : String
  includeTools : List String
  env : Option Env
deriving Repr, DecidableEq

/-- Embedding of `AgnoMCPServerStdio.setup_tools`. -/
def agnoSetupTools (hostEnv : Env) (cfg : MCPToolCfg) : AgnoResult :=
  { commandLine := cfg.command ++ " " ++ String.intercalate " " cfg.args
    includeTools := cfg.tools
    env := some hostEnv }

/-- The six framework adapters defined in mcp.py. -/
inductive Framework where
  | smolagents
  | openai
  | langchain
  | google
  | llamaindex
  | agno
deriving Repr, DecidableEq

/-- The environment entry of the spawn parameters each adapter's
`setup_tools` constructs for the child MCP server process, read off the
corresponding embedded setup function. -/
def spawnEnv (f : Framework) (hostEnv : Env) (cfg : MCPToolCfg)
    (advertised : List ToolDesc) : Option Env :=
  match f with
  | .smolagents =>
      match (smolagentsSetupTools hostEnv advertised (initSmol cfg)).state.serverParameters with
      | some sp => sp.env
      | none => none
  | .openai => (openaiSetupTools hostEnv advertised cfg).spawn.env
  | .langchain => (langchainSetupTools hostEnv advertised cfg).spawn.env
  | .google => (googleSetupTools hostEnv advertised cfg).spawn.env
  | .llamaindex => (llamaIndexSetupTools hostEnv cfg).spawn.env
  | .agno => (agnoSetupTools hostEnv cfg).env

/-- Embedding of `show_plan` (user_interaction.py lines 4-11): logs
`f"Current plan: {plan}"` at info level and returns `plan`. -/
def show_plan (plan : String) : LogEvent × String :=
  ({ level := .info, msg := "Current plan: " ++ plan, data := [] }, plan)

/-- Embedding of `show_final_answer` (user_interaction.py lines 14-21):
logs `f"Final answer: {answer}"` at info level and returns `answer`. -/
def show_final_answer (answer : String) : LogEvent × String :=
  ({ level := .info, msg := "Final answer: " ++ answer, data := [] }, answer)

/-! ### Helper lemmas about the allow-list filter -/

/-- Mapping names over a name-based filter of tool descriptors is the same
as filtering the name list. -/
lemma map_name_filter (l : List ToolDesc) (p : String → Bool) :
    (l.filter (fun t => p t.name)).map (fun t => t.name) =
      (l.map (fun t => t.name)).filter p := by
  induction l with
  | nil => rfl
  | cons a l ih =>
    by_cases h : p a.name <;> simp [List.filter_cons, h, ih]

/-- When the advertised names are distinct and the (duplicate-free)
requested names are all advertised, filtering the advertised names down to
the requested ones yields a permutation of the requested list. -/
lemma filter_names_perm_requested (names requested : List String)
    (hadv : names.Nodup) (hreq : requested.Nodup)
    (hsub : ∀ r ∈ requested, r ∈ names) :
    (names.filter (fun n => decide (n ∈ requested))).Perm requested := by
  apply List.Subperm.antisymm
  · apply List.subperm_of_subset (hadv.filter _)
    intro x hx
    have hmem := List.of_mem_filter hx
    simpa using hmem
  · apply List.subperm_of_subset hreq
    intro r hr
    rw [List.mem_filter]
    exact ⟨hsub r hr, by simpa⟩

/-- Counting version of `filter_names_perm_requested` for the tool list
itself: the filtered tool list has exactly as many entries as the
allow-list. -/
lemma filter_length_eq_of_subset (advertised : List ToolDesc) (requested : List String)
    (hadv : (advertised.map (fun t => t.name)).Nodup) (hreq : requested.Nodup)
    (hsub : ∀ r ∈ requested, r ∈ advertised.map (fun t => t.name)) :
    (advertised.filter (fun t => decide (t.name ∈ requested))).length = requested.length := by
  have h1 := map_name_filter advertised (fun n => decide (n ∈ requested))
  have h2 := filter_names_perm_requested (advertised.map (fun t => t.name)) requested
    hadv hreq hsub
  calc (advertised.filter (fun t => decide (t.name ∈ requested))).length
      = ((advertised.filter (fun t => decide (t.name ∈ requested))).map
          (fun t => t.name)).length := (List.length_map _ _).symm
    _ = ((advertised.map (fun t => t.name)).filter
          (fun n => decide (n ∈ requested))).length := by rw [h1]
    _ = requested.length := h2.length_eq

/-! ### Claim theorems -/

/-- C1: the claim says every `MCPServerBase` adapter provides an
idempotent `teardown` transitioning READY to CLOSED.  The source defines no
such operation: neither `MCPServerBase` nor any adapter has a teardown,
close, or cleanup method, and the only state transition a handle defines
(`setup_tools`) always leaves the transport open — so no READY-to-CLOSED
transition exists in the code. -/
theorem smolagents_no_close_transition :
    ("teardown" ∉ MCPServerBase.methods ∧
      "teardown" ∉ SmolagentsMCPServerStdio.methods) ∧
    ∀ (hostEnv : Env) (advertised : List ToolDesc) (s : SmolagentsState),
      (smolagentsSetupTools hostEnv advertised s).state.contextOpen = true := by
  refine ⟨⟨by decide, by decide⟩, ?_⟩
  intro hostEnv advertised s
  unfold smolagentsSetupTools
  dsimp only
  split
  · rfl
  · split <;> rfl

/-- C7: the code has no guard against calling `setup_tools` twice on the
same handle.  Evaluating the code at the failing input (a second
`setup_tools` call after a completed first one): the second call raises
nothing and runs `ToolCollection.from_mcp` + `__enter__` again, spawning a
second server process (`spawnCount = 2`) instead of failing with an
`InvalidStateError`. -/
theorem double_setup_respawns_without_error :
    (let cfg : MCPToolCfg :=
      { command := "echo-server", args := ["--port", "0"], tools := [] }
     let he : Env := [("PATH", "/bin")]
     let adv : List ToolDesc := [{ name := "search" }]
     let r1 := smolagentsSetupTools he adv (initSmol cfg)
     let r2 := smolagentsSetupTools he adv r1.state
     r1.error = none ∧ r2.error = none ∧ r2.state.spawnCount = 2) := by
  decide

/-- C9: every `setup_tools` call on the smolagents adapter passes
`trust_remote_code=True` to `ToolCollection.from_mcp`, whatever the
configuration and the handle's prior state: no input can disable it. -/
theorem smolagents_trust_remote_code_always_true
    (hostEnv : Env) (advertised : List ToolDesc) (s : SmolagentsState) :
    (smolagentsSetupTools hostEnv advertised s).state.trustRemoteCode = some true := by
  unfold smolagentsSetupTools
  dsimp only
  split
  · rfl
  · split <;> rfl

/-- C10: `show_plan` and `show_final_answer` return their string argument
unchanged (despite the `-> None` annotation in the source), after logging
it at info level. -/
theorem show_plan_and_final_answer_return_input (s : String) :
    (show_plan s).2 = s ∧ (show_final_answer s).2 = s ∧
    (show_plan s).1 = { level := .info, msg := "Current plan: " ++ s, data := [] } ∧
    (show_final_answer s).1 = { level := .info, msg := "Final answer: " ++ s, data := [] } :=
  ⟨rfl, rfl, rfl, rfl⟩

/-- C4: with no allow-list, setup succeeds, resolves exactly the server's
full advertised tool list in the server's order, and logs an informational
diagnostic whose interpolated data enumerates the auto-selected tools. -/
theorem no_allowlist_resolves_all_and_logs
    (hostEnv : Env) (advertised : List ToolDesc) (cfg : MCPToolCfg)
    (hnone : cfg.tools = []) :
    (smolagentsSetupTools hostEnv advertised (initSmol cfg)).error = none ∧
    (smolagentsSetupTools hostEnv advertised (initSmol cfg)).state.tools = advertised ∧
    ∃ e ∈ (smolagentsSetupTools hostEnv advertised (initSmol cfg)).logs,
      e.level = .info ∧ e.data = advertised := by
  unfold smolagentsSetupTools initSmol
  rw [hnone]
  dsimp only
  refine ⟨rfl, rfl, ⟨{ level := .info, msg := "Tools available:", data := advertised }, ?_, rfl, rfl⟩⟩
  simp

/-- Witness for `no_allowlist_resolves_all_and_logs` at a concrete input. -/
theorem no_allowlist_resolves_all_and_logs_witness :
    ({ command := "echo-server", args := [], tools := [] } : MCPToolCfg).tools = [] ∧
    ((smolagentsSetupTools [] [{ name := "search" }, { name := "fetch" }]
        (initSmol { command := "echo-server", args := [], tools := [] })).error = none ∧
      (smolagentsSetupTools [] [{ name := "search" }, { name := "fetch" }]
        (initSmol { command := "echo-server", args := [], tools := [] })).state.tools =
        [{ name := "search" }, { name := "fetch" }] ∧
      ∃ e ∈ (smolagentsSetupTools [] [{ name := "search" }, { name := "fetch" }]
        (initSmol { command := "echo-server", args := [], tools := [] })).logs,
        e.level = .info ∧ e.data = [{ name := "search" }, { name := "fetch" }]) :=
  ⟨rfl, no_allowlist_resolves_all_and_logs [] [{ name := "search" }, { name := "fetch" }]
    { command := "echo-server", args := [], tools := [] } rfl⟩

/-- C8: when `setup_tools` raises the tool-resolution `ValueError`, the
error path performs no cleanup: the context stays entered (transport open),
the stored server parameters stay set, and the resolved tool list stays
the empty list it was initialized to — the raise changes no transport
state. -/
theorem resolution_error_leaves_transport_open
    (hostEnv : Env) (advertised : List ToolDesc) (cfg : MCPToolCfg)
    (h : (smolagentsSetupTools hostEnv advertised (initSmol cfg)).error.isSome) :
    (smolagentsSetupTools hostEnv advertised (initSmol cfg)).state.contextOpen = true ∧
    (smolagentsSetupTools hostEnv advertised (initSmol cfg)).state.serverParameters =
      some { command := cfg.command, args := cfg.args, env := some hostEnv } ∧
    (smolagentsSetupTools hostEnv advertised (initSmol cfg)).state.tools = [] := by
  revert h
  unfold smolagentsSetupTools initSmol
  dsimp only
  split
  · intro h
    exact absurd h (by simp)
  · split
    · intro _
      exact ⟨rfl, rfl, rfl⟩
    · intro h
      exact absurd h (by simp)

/-- Witness for `resolution_error_leaves_transport_open`: a request for a
tool the server does not advertise makes setup raise, and the transport is
left open with no tools resolved. -/
theorem resolution_error_leaves_transport_open_witness :
    (smolagentsSetupTools [("PATH", "/bin")] [{ name := "search" }]
        (initSmol { command := "echo-server", args := [], tools := ["fetch"] })).error.isSome = true ∧
    ((smolagentsSetupTools [("PATH", "/bin")] [{ name := "search" }]
        (initSmol { command := "echo-server", args := [], tools := ["fetch"] })).state.contextOpen = true ∧
      (smolagentsSetupTools [("PATH", "/bin")] [{ name := "search" }]
        (initSmol { command := "echo-server", args := [], tools := ["fetch"] })).state.serverParameters =
        some { command := "echo-server", args := [], env := some [("PATH", "/bin")] } ∧
      (smolagentsSetupTools [("PATH", "/bin")] [{ name := "search" }]
        (initSmol { command := "echo-server", args := [], tools := ["fetch"] })).state.tools = []) :=
  ⟨by decide, resolution_error_leaves_transport_open [("PATH", "/bin")] [{ name := "search" }]
    { command := "echo-server", args := [], tools := ["fetch"] } (by decide)⟩

/-- C2 counterexample: the empty allow-list is a subset of every advertised
name set, yet setup does not resolve to its elements (the empty list): the
empty list is falsy in Python, so the code takes the no-allow-list branch
and resolves the full advertised list. -/
theorem empty_allowlist_resolves_full_set :
    (smolagentsSetupTools [] [{ name := "a" }]
        (initSmol { command := "echo-server", args := [], tools := [] })).error = none ∧
    (smolagentsSetupTools [] [{ name := "a" }]
        (initSmol { command := "echo-server", args := [], tools := [] })).state.tools =
      [{ name := "a" }] ∧
    (smolagentsSetupTools [] [{ name := "a" }]
        (initSmol { command := "echo-server", args := [], tools := [] })).state.tools ≠
      ([] : List ToolDesc) := by
  decide

/-- C2 (amended: the allow-list must be non-empty, since an empty list is
falsy and treated as "no allow-list"): for every ServerSpec whose non-empty
duplicate-free allow-list is a subset of the server's advertised names
(themselves pairwise distinct, as befits a set of names), setup succeeds
and the resolved tool list is exactly the advertised tools whose names are
in the allow-list, in the order the server reported them; its names are a
permutation of the allow-list, i.e. exactly the allow-list's elements. -/
theorem nonempty_allowlist_subset_resolves_exactly
    (hostEnv : Env) (advertised : List ToolDesc) (cfg : MCPToolCfg)
    (hne : cfg.tools ≠ [])
    (hreq : cfg.tools.Nodup)
    (hadv : (advertised.map (fun t => t.name)).Nodup)
    (hsub : ∀ r ∈ cfg.tools, r ∈ advertised.map (fun t => t.name)) :
    (smolagentsSetupTools hostEnv advertised (initSmol cfg)).error = none ∧
    (smolagentsSetupTools hostEnv advertised (initSmol cfg)).state.tools =
      advertised.filter (fun t => decide (t.name ∈ cfg.tools)) ∧
    ((smolagentsSetupTools hostEnv advertised (initSmol cfg)).state.tools.map
      (fun t => t.name)).Perm cfg.tools := by
  have hlen := filter_length_eq_of_subset advertised cfg.tools hadv hreq hsub
  have hperm : ((advertised.filter (fun t => decide (t.name ∈ cfg.tools))).map
      (fun t => t.name)).Perm cfg.tools := by
    rw [map_name_filter advertised (fun n => decide (n ∈ cfg.tools))]
    exact filter_names_perm_requested _ _ hadv hreq hsub
  have hempty : cfg.tools.isEmpty = false := by
    cases h : cfg.tools.isEmpty
    · rfl
    · exact absurd (List.isEmpty_iff.mp h) hne
  unfold smolagentsSetupTools initSmol
  dsimp only
  rw [hempty]
  rw [if_neg Bool.false_ne_true]
  rw [if_neg (fun hcontra => hcontra hlen)]
  exact ⟨rfl, rfl, hperm⟩

/-- Witness for `nonempty_allowlist_subset_resolves_exactly`, the concrete
scenario of spec §8.6: allow-list `["search", "fetch"]` against a server
advertising `["search", "fetch", "summarize"]` resolves `[search, fetch]`
in server order. -/
theorem nonempty_allowlist_subset_resolves_exactly_witness :
    ((["search", "fetch"] : List String) ≠ [] ∧
      (["search", "fetch"] : List String).Nodup ∧
      (([{ name := "search" }, { name := "fetch" }, { name := "summarize" }] : List ToolDesc).map
        (fun t => t.name)).Nodup ∧
      ∀ r ∈ (["search", "fetch"] : List String),
        r ∈ ([{ name := "search" }, { name := "fetch" }, { name := "summarize" }] : List ToolDesc).map
          (fun t => t.name)) ∧
    ((smolagentsSetupTools [] [{ name := "search" }, { name := "fetch" }, { name := "summarize" }]
        (initSmol { command := "echo-server", args := ["--port", "0"], tools := ["search", "fetch"] })).error = none ∧
      (smolagentsSetupTools [] [{ name := "search" }, { name := "fetch" }, { name := "summarize" }]
        (initSmol { command := "echo-server", args := ["--port", "0"], tools := ["search", "fetch"] })).state.tools =
        ([{ name := "search" }, { name := "fetch" }, { name := "summarize" }] : List ToolDesc).filter
          (fun t => decide (t.name ∈ (["search", "fetch"] : List String))) ∧
      ((smolagentsSetupTools [] [{ name := "search" }, { name := "fetch" }, { name := "summarize" }]
        (initSmol { command := "echo-server", args := ["--port", "0"], tools := ["search", "fetch"] })).state.tools.map
          (fun t => t.name)).Perm ["search", "fetch"]) :=
  ⟨⟨by decide, by decide, by decide, by decide⟩,
    nonempty_allowlist_subset_resolves_exactly []
      [{ name := "search" }, { name := "fetch" }, { name := "summarize" }]
      { command := "echo-server", args := ["--port", "0"], tools := ["search", "fetch"] }
      (by decide) (by decide) (by decide) (by decide)⟩

/-- C3: when the (duplicate-free) allow-list contains a name `x` absent
from the server's advertised names (themselves pairwise distinct), setup
raises the resolution error, whose interpolated message data are exactly
the requested names and the names actually found, and the handle's
resolved tool list remains the empty list it was initialized to. -/
theorem missing_tool_raises_resolution_error
    (hostEnv : Env) (advertised : List ToolDesc) (cfg : MCPToolCfg) (x : String)
    (hadv : (advertised.map (fun t => t.name)).Nodup)
    (hx : x ∈ cfg.tools)
    (hax : x ∉ advertised.map (fun t => t.name)) :
    (smolagentsSetupTools hostEnv advertised (initSmol cfg)).error =
      some { requested := cfg.tools
             found := (advertised.filter (fun t => decide (t.name ∈ cfg.tools))).map
               (fun t => t.name) } ∧
    (smolagentsSetupTools hostEnv advertised (initSmol cfg)).state.tools = [] := by
  have hmap := map_name_filter advertised (fun n => decide (n ∈ cfg.tools))
  have hlen_eq : (advertised.filter (fun t => decide (t.name ∈ cfg.tools))).length
      = ((advertised.map (fun t => t.name)).filter (fun n => decide (n ∈ cfg.tools))).length := by
    rw [← hmap, List.length_map]
  have hnodup := hadv.filter (fun n => decide (n ∈ cfg.tools))
  have hsubset : ((advertised.map (fun t => t.name)).filter
      (fun n => decide (n ∈ cfg.tools))) ⊆ cfg.tools := by
    intro a ha
    have hmem := List.of_mem_filter ha
    simpa using hmem
  have hsubperm := List.subperm_of_subset hnodup hsubset
  have hne_len : (advertised.filter (fun t => decide (t.name ∈ cfg.tools))).length ≠
      cfg.tools.length := by
    rw [hlen_eq]
    intro heq
    have hperm := hsubperm.perm_of_length_le (le_of_eq heq.symm)
    have hxmem : x ∈ (advertised.map (fun t => t.name)).filter
        (fun n => decide (n ∈ cfg.tools)) := hperm.mem_iff.mpr hx
    exact hax (List.mem_of_mem_filter hxmem)
  have hempty : cfg.tools.isEmpty = false := by
    cases h : cfg.tools.isEmpty
    · rfl
    · rw [List.isEmpty_iff.mp h] at hx
      exact absurd hx (List.not_mem_nil x)
  unfold smolagentsSetupTools initSmol
  dsimp only
  rw [hempty, if_neg Bool.false_ne_true, if_pos hne_len]
  exact ⟨rfl, rfl⟩

/-- Witness for `missing_tool_raises_resolution_error`, the concrete
scenario of spec §8.7: allow-list `["search", "fetch"]` against a server
advertising only `["search"]` raises, with requested `["search", "fetch"]`
and found `["search"]`, and no tools resolved. -/
theorem missing_tool_raises_resolution_error_witness :
    ((([{ name := "search" }] : List ToolDesc).map (fun t => t.name)).Nodup ∧
      "fetch" ∈ (["search", "fetch"] : List String) ∧
      "fetch" ∉ ([{ name := "search" }] : List ToolDesc).map (fun t => t.name)) ∧
    ((smolagentsSetupTools [] [{ name := "search" }]
        (initSmol { command := "echo-server", args := ["--port", "0"], tools := ["search", "fetch"] })).error =
      some { requested := ["search", "fetch"]
             found := (([{ name := "search" }] : List ToolDesc).filter
               (fun t => decide (t.name ∈ (["search", "fetch"] : List String)))).map
               (fun t => t.name) } ∧
      (smolagentsSetupTools [] [{ name := "search" }]
        (initSmol { command := "echo-server", args := ["--port", "0"], tools := ["search", "fetch"] })).state.tools = []) :=
  ⟨⟨by decide, by decide, by decide⟩,
    missing_tool_raises_resolution_error [] [{ name := "search" }]
      { command := "echo-server", args := ["--port", "0"], tools := ["search", "fetch"] }
      "fetch" (by decide) (by decide) (by decide)⟩

/-- C5 counterexample: the OpenAI adapter constructs its server parameters
without any `env` entry, so it reaches READY without forwarding the host
process environment into the child server process. -/
theorem openai_env_not_forwarded :
    spawnEnv .openai [("PATH", "/bin")]
      { command := "echo-server", args := [], tools := [] } [] = none ∧
    spawnEnv .openai [("PATH", "/bin")]
      { command := "echo-server", args := [], tools := [] } [] ≠
      some [("PATH", "/bin")] := by
  decide

/-- On every path through the smolagents setup, the stored server
parameters are the ones built at the top of the call: command and args
from the configuration and a copy of the host environment. -/
lemma smolagentsSetupTools_serverParameters (hostEnv : Env)
    (advertised : List ToolDesc) (s : SmolagentsState) :
    (smolagentsSetupTools hostEnv advertised s).state.serverParameters =
      some { command := s.mcpTool.command, args := s.mcpTool.args, env := some hostEnv } := by
  unfold smolagentsSetupTools
  dsimp only
  split
  · rfl
  · split <;> rfl

/-- C5 (amended: every adapter except the OpenAI one): the smolagents,
langchain, google, llamaindex and agno adapters all spawn the child MCP
server with `env={**os.environ}`, a copy of the host environment. -/
theorem non_openai_adapters_forward_env
    (f : Framework) (hostEnv : Env) (cfg : MCPToolCfg) (advertised : List ToolDesc)
    (h : f ≠ .openai) :
    spawnEnv f hostEnv cfg advertised = some hostEnv := by
  cases f with
  | openai => exact absurd rfl h
  | smolagents =>
    unfold spawnEnv
    rw [smolagentsSetupTools_serverParameters]
  | langchain => rfl
  | google => rfl
  | llamaindex => rfl
  | agno => rfl

/-- Witness for `non_openai_adapters_forward_env` at the langchain
adapter. -/
theorem non_openai_adapters_forward_env_witness :
    (Framework.langchain ≠ Framework.openai) ∧
    spawnEnv .langchain [("PATH", "/bin")]
      { command := "echo-server", args := [], tools := [] } [] =
      some [("PATH", "/bin")] :=
  ⟨by decide, non_openai_adapters_forward_env .langchain [("PATH", "/bin")]
    { command := "echo-server", args := [], tools := [] } [] (by decide)⟩

/-- C6 counterexample: the langchain adapter, given the allow-list `["a"]`
against a server advertising `a` and `b`, resolves the full advertised
set, emits no log event at all (in particular no warning), and hands no
allow-list to its native client — a silent acceptance of the full set. -/
theorem langchain_ignores_allowlist :
    (langchainSetupTools [("PATH", "/bin")] [{ name := "a" }, { name := "b" }]
        { command := "echo-server", args := [], tools := ["a"] }).tools =
      [{ name := "a" }, { name := "b" }] ∧
    (langchainSetupTools [("PATH", "/bin")] [{ name := "a" }, { name := "b" }]
        { command := "echo-server", args := [], tools := ["a"] }).logs = [] ∧
    (langchainSetupTools [("PATH", "/bin")] [{ name := "a" }, { name := "b" }]
        { command := "echo-server", args := [], tools := ["a"] }).allowToClient = none := by
  decide

/-- C6 (amended: four of the six adapters): for a supplied (non-empty)
allow-list, the smolagents adapter filters/verifies the resolved tools
against it, the OpenAI adapter emits its capability-gap warning, and the
llamaindex and agno adapters pass the allow-list through to their native
client constructors; the langchain and google adapters ignore it
silently. -/
theorem allowlist_not_silently_ignored_four_adapters
    (hostEnv : Env) (advertised : List ToolDesc) (cfg : MCPToolCfg)
    (hne : cfg.tools ≠ []) :
    ((smolagentsSetupTools hostEnv advertised (initSmol cfg)).error = none →
      ∀ t ∈ (smolagentsSetupTools hostEnv advertised (initSmol cfg)).state.tools,
        t.name ∈ cfg.tools) ∧
    (∃ e ∈ (openaiSetupTools hostEnv advertised cfg).logs, e.level = .warning) ∧
    (llamaIndexSetupTools hostEnv cfg).allowedTools = cfg.tools ∧
    (agnoSetupTools hostEnv cfg).includeTools = cfg.tools := by
  have hempty : cfg.tools.isEmpty = false := by
    cases h : cfg.tools.isEmpty
    · rfl
    · exact absurd (List.isEmpty_iff.mp h) hne
  refine ⟨?_, ⟨_, List.mem_cons_self _ _, rfl⟩, rfl, rfl⟩
  unfold smolagentsSetupTools initSmol
  dsimp only
  rw [hempty, if_neg Bool.false_ne_true]
  split
  · intro h
    exact absurd h (by simp)
  · intro _ t ht
    have hmem := List.of_mem_filter ht
    simpa using hmem

/-- Witness for `allowlist_not_silently_ignored_four_adapters` at a
concrete allow-list. -/
theorem allowlist_not_silently_ignored_four_adapters_witness :
    ((["a"] : List String) ≠ []) ∧
    (((smolagentsSetupTools [] [{ name := "a" }]
        (initSmol { command := "cmd", args := [], tools := ["a"] })).error = none →
      ∀ t ∈ (smolagentsSetupTools [] [{ name := "a" }]
        (initSmol { command := "cmd", args := [], tools := ["a"] })).state.tools,
        t.name ∈ ({ command := "cmd", args := [], tools := ["a"] } : MCPToolCfg).tools) ∧
    (∃ e ∈ (openaiSetupTools [] [{ name := "a" }]
        { command := "cmd", args := [], tools := ["a"] }).logs, e.level = .warning) ∧
    (llamaIndexSetupTools [] { command := "cmd", args := [], tools := ["a"] }).allowedTools = ["a"] ∧
    (agnoSetupTools [] { command := "cmd", args := [], tools := ["a"] }).includeTools = ["a"]) :=
  ⟨by decide, allowlist_not_silently_ignored_four_adapters [] [{ name := "a" }]
    { command := "cmd", args := [], tools := ["a"] } (by decide)⟩
